import Mathlib

/-!
Shallow embedding of the `event` package (src/event.go): a Mongo-backed
event store with operations Init / Create / Update / Get / List /
ListFiltered over a single collection of `rawEvent` envelopes.

Modelling choices:
* A BSON document is an ordered association list of field name to value
  (`BDoc`).  `bson.Marshal` of a Go struct value is the document of its
  fields, so a concrete-typed Go value is represented by that document
  (`GoVal.structV`); destinations that are not structs or maps (for which
  `bson.Raw.Unmarshal` errors) are `GoVal.otherV`.
* `bson.ObjectId` is a byte string; `ObjectId.Valid()` in mgo checks that
  its length is 12 (`objectIdValid`).
* The collection is a list of envelopes in natural order; `Find(_id).One`
  returns the first match, `Insert` appends (failing on a duplicate `_id`,
  per Mongo's unique index on `_id`), `Update(sel, e)` replaces the first
  match and returns `mgo.ErrNotFound` when nothing matches.
* Sessions: `store.Session.Copy()` increments an open-session counter,
  `session.Close()` (run via `defer`) decrements it; `StoreState` carries
  the counter next to the documents.
* Go `error` values are the inductive `GoErr`; distinct `errors.New`
  values are distinct constructors.
-/

/-- BSON values, restricted to the kinds the events in this repository use. -/
inductive BVal where
  | vId (s : String)
  | vInt (n : Int)
  | vStr (s : String)
deriving DecidableEq, Repr

/-- A BSON document: ordered field name / value pairs. -/
abbrev BDoc := List (String × BVal)

/-- Field kinds of a concrete Go struct type. -/
inductive FTy where
  | tId
  | tInt
  | tStr
deriving DecidableEq, Repr

/-- The Go zero value of a struct field of the given kind. -/
def FTy.zero : FTy → BVal
  | .tId => .vId ""
  | .tInt => .vInt 0
  | .tStr => .vStr ""

/-- Whether a BSON value is assignable to a struct field of kind `t`. -/
def BVal.hasTy : BVal → FTy → Bool
  | .vId _, .tId => true
  | .vInt _, .tInt => true
  | .vStr _, .tStr => true
  | _, _ => false

/-- mgo's bson decoder sets a struct field only when the element kind is
assignable to the field; otherwise it silently skips the element. -/
def sameKind : BVal → BVal → Bool
  | .vId _, .vId _ => true
  | .vInt _, .vInt _ => true
  | .vStr _, .vStr _ => true
  | _, _ => false

/-- A concrete Go struct type, as bson sees it: lowercased field names
with their kinds, in declaration order. -/
abbrev StructTy := List (String × FTy)

/-- A runtime Go value handed to the store as a deserialization target:
either a struct value (its bson field document) or a value of some other
kind, into which `bson.Raw.Unmarshal` refuses to decode. -/
inductive GoVal where
  | structV (fields : BDoc)
  | otherV (v : BVal)
deriving DecidableEq, Repr

/-- The element type of a destination slice, as obtained by reflection. -/
inductive ElemTy where
  | structTy (fields : StructTy)
  | otherTy
deriving DecidableEq, Repr

/-- `reflect.New(st)`: a freshly allocated zero value of the element type. -/
def ElemTy.zeroVal : ElemTy → GoVal
  | .structTy fs => .structV (fs.map fun p => (p.1, p.2.zero))
  | .otherTy => .otherV (.vInt 0)

/-- `doc` is exactly the bson image of a value of struct type `ty`:
same field names in the same order, each value of the field's kind. -/
def conforms : BDoc → StructTy → Bool
  | [], [] => true
  | (n, v) :: doc, (m, t) :: ty => n == m && v.hasTy t && conforms doc ty
  | _, _ => false

/-- Go error values appearing in src/event.go, one constructor per
distinct `errors.New`/`fmt.Errorf` family. -/
inductive GoErr where
  /-- `mgo.ErrNotFound` ("not found"), produced by the driver. -/
  | MgoErrNotFound
  /-- `event.ErrNotFound` ("Event not found"), line 15. -/
  | ErrNotFound
  /-- `event.ErrInterfaceNotSlicePtr` ("Argument is not a ptr to a slice"), line 16. -/
  | ErrInterfaceNotSlicePtr
  /-- `fmt.Errorf` results of `validateEvent`, lines 61 and 65. -/
  | Validation (msg : String)
  /-- any other backend / serialization error, carried unmodified. -/
  | Other (msg : String)
deriving DecidableEq, Repr

/-- bson element lookup by field name (first occurrence wins). -/
def lookupField (doc : BDoc) (n : String) : Option BVal :=
  match doc.find? fun p => p.1 == n with
  | some p => some p.2
  | none => none

/-- Decode one struct field: take the document's element of that name when
its kind is assignable, otherwise keep the field's current value. -/
def setField (doc : BDoc) (n : String) (old : BVal) : BVal :=
  match lookupField doc n with
  | some v => if sameKind v old then v else old
  | none => old

/-- `bson.Raw.Unmarshal(out)`: decodes field-by-field into a struct (or
map) destination, and errors on any other destination kind. -/
def bsonUnmarshal (doc : BDoc) (dest : GoVal) : Except GoErr GoVal :=
  match dest with
  | .structV fs => .ok (.structV (fs.map fun p => (p.1, setField doc p.1 p.2)))
  | .otherV _ => .error (.Other "Unmarshal needs a map or a pointer to a struct.")

/-- An `Event` as the store receives it: the three accessor results
(`GetId`, `GetInstanceId`, `GetType`) plus `bson.Marshal` of the concrete
value (its full field document). -/
structure GoEvent where
  id : String
  instanceId : String
  etype : Int
  doc : BDoc
deriving DecidableEq, Repr

/-- The persisted envelope `rawEvent` (src/event.go lines 19-24).  The
source field `Type` is spelled `EType` here because `Type` is a Lean
keyword. -/
structure rawEvent where
  Id : String
  InstanceId : String
  EType : Int
  Raw : BDoc
deriving DecidableEq, Repr

/-- `bson.ObjectId.Valid()`: the byte string has length 12. -/
def objectIdValid (s : String) : Bool :=
  s.length == 12

/-- `validateEvent` (lines 59-69): Id first, then InstanceId, with the
`fmt.Errorf` messages of the source. -/
def validateEvent (e : GoEvent) : Option String :=
  if !objectIdValid e.id then some ("Event not valid Id = " ++ e.id)
  else if !objectIdValid e.instanceId then some ("Event not valid InstanceId = " ++ e.instanceId)
  else none

/-- `buildEvent` (lines 44-52): wrap the marshalled payload and the three
accessor results into an envelope (`toBSONRaw` is `bson.Marshal` followed
by decoding into `bson.Raw`, i.e. the field document itself). -/
def buildEvent (e : GoEvent) : rawEvent :=
  { Id := e.id, InstanceId := e.instanceId, EType := e.etype, Raw := e.doc }

/-- `fromEvent` (lines 54-57): unmarshal the stored raw payload into the
destination. -/
def fromEvent (out : GoVal) (re : rawEvent) : Except GoErr GoVal :=
  bsonUnmarshal re.Raw out

/-- The store's backing collection plus the number of driver sessions
currently open (copied and not yet closed). -/
structure StoreState where
  docs : List rawEvent
  openSessions : Nat
deriving DecidableEq, Repr

/-- `store.Session.Copy()`. -/
def sessionCopy (st : StoreState) : StoreState :=
  { st with openSessions := st.openSessions + 1 }

/-- `session.Close()`. -/
def sessionClose (st : StoreState) : StoreState :=
  { st with openSessions := st.openSessions - 1 }

/-- `collection.Insert(&e)`: Mongo appends the document, failing on a
duplicate `_id` (unique index). -/
def insertDoc (docs : List rawEvent) (re : rawEvent) : Except GoErr (List rawEvent) :=
  match docs.find? fun r => r.Id == re.Id with
  | some _ => .error (.Other "E11000 duplicate key error")
  | none => .ok (docs ++ [re])

/-- Replace the first envelope whose `_id` matches. -/
def replaceFirst : List rawEvent → String → rawEvent → List rawEvent
  | [], _, _ => []
  | r :: rest, id, re => if r.Id == id then re :: rest else r :: replaceFirst rest id re

/-- `collection.Update(bson.M{"_id": sel}, e)`: replaces the first match,
or returns `mgo.ErrNotFound` when no document matches. -/
def updateDoc (docs : List rawEvent) (sel : String) (re : rawEvent) : Except GoErr (List rawEvent) :=
  match docs.find? fun r => r.Id == sel with
  | some _ => .ok (replaceFirst docs sel re)
  | none => .error .MgoErrNotFound

/-- `collection.Find(bson.M{"_id": id}).One(&e)`. -/
def findOne (docs : List rawEvent) (id : String) : Except GoErr rawEvent :=
  match docs.find? fun r => r.Id == id with
  | some r => .ok r
  | none => .error .MgoErrNotFound

/-- `MongoEventStore.Create` (lines 141-153): validate, copy a session
(closed by `defer`), build the envelope, insert it. -/
def MongoEventStore.Create (st : StoreState) (e : GoEvent) :
    Except GoErr Unit × StoreState :=
  match validateEvent e with
  | some msg => (.error (.Validation msg), st)
  | none =>
    let s := sessionCopy st
    let re := buildEvent e
    match insertDoc s.docs re with
    | .error er => (.error er, sessionClose s)
    | .ok docs2 => (.ok (), sessionClose { s with docs := docs2 })

/-- `MongoEventStore.Update` (lines 155-169): validate, copy a session
(closed by `defer`), build the envelope, replace by `_id`. -/
def MongoEventStore.Update (st : StoreState) (e : GoEvent) :
    Except GoErr Unit × StoreState :=
  match validateEvent e with
  | some msg => (.error (.Validation msg), st)
  | none =>
    let s := sessionCopy st
    let re := buildEvent e
    match updateDoc s.docs e.id re with
    | .error er => (.error er, sessionClose s)
    | .ok docs2 => (.ok (), sessionClose { s with docs := docs2 })

/-- Lines 175-182 of `Get`, applied to the result of the find: map
`mgo.ErrNotFound` to `event.ErrNotFound`, pass every other find error
through unchanged, and otherwise unmarshal the payload into `out`. -/
def getWithFindResult (fr : Except GoErr rawEvent) (out : GoVal) : Except GoErr GoVal :=
  match fr with
  | .error e => .error (if e == GoErr.MgoErrNotFound then GoErr.ErrNotFound else e)
  | .ok re => fromEvent out re

/-- `MongoEventStore.Get` (lines 171-183). -/
def MongoEventStore.Get (st : StoreState) (id : String) (out : GoVal) :
    Except GoErr GoVal × StoreState :=
  let s := sessionCopy st
  (getWithFindResult (findOne s.docs id) out, sessionClose s)

/-- The `out interface{}` argument of `list`, sorted by the reflection
checks of lines 190-195: the nil interface, a slice passed by value, some
other non-pointer, a pointer to a non-slice, or a pointer to a slice. -/
inductive Dest where
  | nilD
  | sliceByValue (ty : ElemTy) (elems : List GoVal)
  | nonPtrOther (v : GoVal)
  | ptrNonSlice (v : GoVal)
  | ptrSlice (ty : ElemTy) (elems : List GoVal)
deriving DecidableEq, Repr

/-- `Find(f).All`: the query result in natural (stored) order, filtered
when a filter document is supplied. -/
def findAll (docs : List rawEvent) (f : Option (rawEvent → Bool)) : List rawEvent :=
  match f with
  | none => docs
  | some p => docs.filter p

/-- One iteration of the loop of lines 207-211: allocate a zero value of
the element type, unmarshal the stored payload into it, and append the
element — note that the source discards `fromEvent`'s error, so on a
failed unmarshal the zero value is appended anyway. -/
def reconstruct (ty : ElemTy) (re : rawEvent) : GoVal :=
  match fromEvent ty.zeroVal re with
  | .ok v => v
  | .error _ => ty.zeroVal

/-- `MongoEventStore.list` (lines 189-214): reflection check before any
session work; then a session is copied (line 197) and — unlike in Create,
Update and Get — never closed. -/
def MongoEventStore.listOp (st : StoreState) (out : Dest) (f : Option (rawEvent → Bool)) :
    Except GoErr Dest × StoreState :=
  match out with
  | .ptrSlice ty elems =>
    let s := sessionCopy st
    let rawEvents := findAll s.docs f
    (.ok (.ptrSlice ty (elems ++ rawEvents.map (reconstruct ty))), s)
  | _ => (.error .ErrInterfaceNotSlicePtr, st)

/-- `MongoEventStore.List` (lines 185-187). -/
def MongoEventStore.List (st : StoreState) (out : Dest) :
    Except GoErr Dest × StoreState :=
  MongoEventStore.listOp st out none

/-- `MongoEventStore.ListFiltered` (lines 216-218). -/
def MongoEventStore.ListFiltered (st : StoreState) (out : Dest) (f : rawEvent → Bool) :
    Except GoErr Dest × StoreState :=
  MongoEventStore.listOp st out (some f)

/-- The `Options` struct (lines 73-77). -/
structure GoOptions where
  Address : String
  DatabaseName : String
  CollectionName : String
deriving DecidableEq, Repr

/-- The three `Option` functional arguments (lines 81-97), reified so
that option lists can be quantified over. -/
inductive OptArg where
  | address (s : String)
  | databaseName (s : String)
  | collectionName (s : String)
deriving DecidableEq, Repr

/-- The closure each option constructor returns: overwrite one field. -/
def OptArg.apply : OptArg → GoOptions → GoOptions
  | .address s, o => { o with Address := s }
  | .databaseName s, o => { o with DatabaseName := s }
  | .collectionName s, o => { o with CollectionName := s }

/-- The defaults of `newOptions` (lines 100-104). -/
def defaultOptions : GoOptions :=
  { Address := "localhost:27017", DatabaseName := "event-sourcing", CollectionName := "event" }

/-- `newOptions` (lines 99-110): defaults, then each option applied in
order. -/
def newOptions (opts : List OptArg) : GoOptions :=
  opts.foldl (fun o a => a.apply o) defaultOptions

/-- Line 127 of `Init` (`MongoEventStore.Init`): the options the store is
configured with before dialing. -/
def initOptions (opts : List OptArg) : GoOptions :=
  newOptions opts

/-- The address projection of an option argument. -/
def OptArg.addr? : OptArg → Option String
  | .address s => some s
  | _ => none

/-- The database-name projection of an option argument. -/
def OptArg.db? : OptArg → Option String
  | .databaseName s => some s
  | _ => none

/-- The collection-name projection of an option argument. -/
def OptArg.col? : OptArg → Option String
  | .collectionName s => some s
  | _ => none

/-- Last element of a list, or the default when the list is empty. -/
def lastD : List String → String → String
  | [], d => d
  | x :: rest, _ => lastD rest x

/-- Sample concrete event used by the witnesses: two valid 12-byte
object ids and a string payload field. -/
def sampleEvent : GoEvent :=
  { id := "aaaaaaaaaaaa"
    instanceId := "bbbbbbbbbbbb"
    etype := 101
    doc := [("id", .vId "aaaaaaaaaaaa"), ("instanceid", .vId "bbbbbbbbbbbb"),
            ("string", .vStr "This is a test of some data")] }

/-- The struct type matching `sampleEvent`'s document. -/
def sampleTy : StructTy :=
  [("id", .tId), ("instanceid", .tId), ("string", .tStr)]

/-- A second sample event sharing `sampleEvent`'s id but with different
instance id and payload, used by the update witness. -/
def sampleEvent2 : GoEvent :=
  { id := "aaaaaaaaaaaa"
    instanceId := "cccccccccccc"
    etype := 101
    doc := [("id", .vId "aaaaaaaaaaaa"), ("instanceid", .vId "cccccccccccc"),
            ("string", .vStr "UPDATED")] }

/-! ### Helper lemmas about field decoding -/

theorem sameKind_zero_of_hasTy (v : BVal) (t : FTy) (h : v.hasTy t = true) :
    sameKind v t.zero = true := by
  cases v <;> cases t <;> simp_all [BVal.hasTy, sameKind, FTy.zero]

theorem lookupField_append_of_notMem (pre doc : BDoc) (n : String)
    (h : n ∉ pre.map Prod.fst) : lookupField (pre ++ doc) n = lookupField doc n := by
  have hnone : pre.find? (fun p => p.1 == n) = none := by
    rw [List.find?_eq_none]
    intro x hx hbx
    exact h (List.mem_map.mpr ⟨x, hx, by simpa using hbx⟩)
  unfold lookupField
  rw [List.find?_append, hnone, Option.none_or]

theorem setFields_conforms (ty : StructTy) : ∀ doc pre : BDoc,
    conforms doc ty = true → ((pre ++ doc).map Prod.fst).Nodup →
    ty.map (fun p => (p.1, setField (pre ++ doc) p.1 p.2.zero)) = doc := by
  induction ty with
  | nil =>
    intro doc pre hc _
    cases doc with
    | nil => rfl
    | cons a l => obtain ⟨_, _⟩ := a; simp [conforms] at hc
  | cons hd tl ih =>
    intro doc pre hc hnd
    obtain ⟨m, t⟩ := hd
    cases doc with
    | nil => simp [conforms] at hc
    | cons dh dt =>
      obtain ⟨n, v⟩ := dh
      simp only [conforms, Bool.and_eq_true, beq_iff_eq] at hc
      obtain ⟨⟨hnm, hty⟩, hrec⟩ := hc
      subst hnm
      have hpre : n ∉ pre.map Prod.fst := by
        rw [List.map_append] at hnd
        have hdisj := List.disjoint_of_nodup_append hnd
        intro hmem
        exact hdisj hmem (by simp)
      have hlk : lookupField (pre ++ (n, v) :: dt) n = some v := by
        rw [lookupField_append_of_notMem _ _ _ hpre]
        simp [lookupField]
      have hset : setField (pre ++ (n, v) :: dt) n t.zero = v := by
        simp [setField, hlk, sameKind_zero_of_hasTy v t hty]
      have hassoc : pre ++ (n, v) :: dt = (pre ++ [(n, v)]) ++ dt := by simp
      simp only [List.map_cons, hset, List.cons.injEq, true_and]
      rw [hassoc]
      exact ih dt (pre ++ [(n, v)]) hrec (by rw [← hassoc]; exact hnd)

theorem bsonUnmarshal_zero (doc : BDoc) (ty : StructTy)
    (hc : conforms doc ty = true) (hnd : (doc.map Prod.fst).Nodup) :
    bsonUnmarshal doc (ElemTy.zeroVal (.structTy ty)) = .ok (.structV doc) := by
  have h := setFields_conforms ty doc [] hc (by simpa using hnd)
  simp only [List.nil_append] at h
  simp only [bsonUnmarshal, ElemTy.zeroVal, List.map_map, Function.comp_def]
  rw [h]

theorem findOne_append_fresh (docs : List rawEvent) (re : rawEvent)
    (h : ∀ r ∈ docs, r.Id ≠ re.Id) : findOne (docs ++ [re]) re.Id = .ok re := by
  have hnone : docs.find? (fun r => r.Id == re.Id) = none := by
    rw [List.find?_eq_none]
    intro x hx hbx
    exact h x hx (by simpa using hbx)
  unfold findOne
  rw [List.find?_append, hnone, Option.none_or]
  simp [List.find?]

theorem findOne_replaceFirst (id : String) (re : rawEvent) (hre : re.Id = id) :
    ∀ docs : List rawEvent, (docs.find? fun r => r.Id == id).isSome = true →
    findOne (replaceFirst docs id re) id = .ok re := by
  intro docs
  induction docs with
  | nil => intro h; simp at h
  | cons r rest ih =>
    intro h
    by_cases hr : (r.Id == id) = true
    · simp only [replaceFirst, if_pos hr]
      unfold findOne
      rw [List.find?_cons_of_pos _ (by simp [hre])]
    · simp only [replaceFirst, if_neg hr]
      have h' : (rest.find? fun x => x.Id == id).isSome = true := by
        rwa [List.find?_cons_of_neg _ (by simpa using hr)] at h
      have htail := ih h'
      unfold findOne at htail ⊢
      rwa [List.find?_cons_of_neg _ (by simpa using hr)]

theorem newOptions_foldl_address (opts : List OptArg) : ∀ o : GoOptions,
    (opts.foldl (fun o a => a.apply o) o).Address =
      lastD (opts.filterMap OptArg.addr?) o.Address := by
  induction opts with
  | nil => intro o; rfl
  | cons a rest ih =>
    intro o
    rw [List.foldl_cons, ih]
    cases a <;> simp [OptArg.apply, OptArg.addr?, lastD]

theorem newOptions_foldl_database (opts : List OptArg) : ∀ o : GoOptions,
    (opts.foldl (fun o a => a.apply o) o).DatabaseName =
      lastD (opts.filterMap OptArg.db?) o.DatabaseName := by
  induction opts with
  | nil => intro o; rfl
  | cons a rest ih =>
    intro o
    rw [List.foldl_cons, ih]
    cases a <;> simp [OptArg.apply, OptArg.db?, lastD]

theorem newOptions_foldl_collection (opts : List OptArg) : ∀ o : GoOptions,
    (opts.foldl (fun o a => a.apply o) o).CollectionName =
      lastD (opts.filterMap OptArg.col?) o.CollectionName := by
  induction opts with
  | nil => intro o; rfl
  | cons a rest ih =>
    intro o
    rw [List.foldl_cons, ih]
    cases a <;> simp [OptArg.apply, OptArg.col?, lastD]

/-! ### Claim theorems -/

/-- C1: for every valid event `e` whose id is fresh in the collection,
`Create e` succeeds, appending the envelope `buildEvent e`, and a
subsequent `Get` of `e.GetId()` into a zero destination of the matching
concrete type succeeds and returns exactly the event's serialized field
document: serializing into the envelope's raw payload
(`buildEvent`/`toBSONRaw`) and deserializing it back (`fromEvent`) is the
identity on the event's fields. -/
theorem createThenGetRoundtrip (st : StoreState) (e : GoEvent) (ty : StructTy)
    (hval : validateEvent e = none)
    (hconf : conforms e.doc ty = true)
    (hnd : (e.doc.map Prod.fst).Nodup)
    (hfresh : ∀ r ∈ st.docs, r.Id ≠ e.id) :
    MongoEventStore.Create st e = (.ok (), ⟨st.docs ++ [buildEvent e], st.openSessions⟩) ∧
    (MongoEventStore.Get ⟨st.docs ++ [buildEvent e], st.openSessions⟩ e.id
        (ElemTy.zeroVal (.structTy ty))).1 = .ok (.structV e.doc) := by
  constructor
  · unfold MongoEventStore.Create
    rw [hval]
    have hnone : st.docs.find? (fun r => r.Id == (buildEvent e).Id) = none := by
      rw [List.find?_eq_none]
      intro x hx hbx
      exact hfresh x hx (by simpa [buildEvent] using hbx)
    simp [insertDoc, hnone, sessionCopy, sessionClose]
  · have h1 : findOne (st.docs ++ [buildEvent e]) e.id = .ok (buildEvent e) :=
      findOne_append_fresh st.docs (buildEvent e) hfresh
    simp only [MongoEventStore.Get, sessionCopy]
    rw [h1]
    simp [getWithFindResult, fromEvent, buildEvent,
      bsonUnmarshal_zero e.doc ty hconf hnd]

/-- Witness for C1: a concrete valid event with a string payload field,
created into an empty store and read back through the matching struct
type. -/
theorem createThenGetRoundtrip_witness :
    MongoEventStore.Create ⟨[], 0⟩ sampleEvent =
      (.ok (), ⟨[] ++ [buildEvent sampleEvent], 0⟩) ∧
    (MongoEventStore.Get ⟨[] ++ [buildEvent sampleEvent], 0⟩ sampleEvent.id
        (ElemTy.zeroVal (.structTy sampleTy))).1 = .ok (.structV sampleEvent.doc) :=
  createThenGetRoundtrip ⟨[], 0⟩ sampleEvent sampleTy (by decide) (by decide)
    (by decide) (by simp)

/-- C2: `List` into a pointer to a slice of a concrete element type
succeeds with exactly one reconstructed element per stored envelope —
each obtained by allocating a fresh zero value of the slice's element
type and deserializing that envelope's raw stored bytes into it by field
name — appended in the order the backing query returned the envelopes. -/
theorem listReconstructsAll (st : StoreState) (ty : ElemTy) :
    (MongoEventStore.List st (.ptrSlice ty [])).1 =
      .ok (.ptrSlice ty (st.docs.map (reconstruct ty))) ∧
    (st.docs.map (reconstruct ty)).length = st.docs.length := by
  constructor
  · simp [MongoEventStore.List, MongoEventStore.listOp, findAll, sessionCopy]
  · simp

/-- C3: an event whose Id or InstanceId is not valid makes `Create` and
`Update` return the validation error naming the failing field, Id being
checked first; the returned store state is the argument itself — the
check precedes the session copy and any network call, and no write is
performed. -/
theorem createUpdateValidationError (st : StoreState) (e : GoEvent) :
    (objectIdValid e.id = false →
      MongoEventStore.Create st e =
        (.error (.Validation ("Event not valid Id = " ++ e.id)), st) ∧
      MongoEventStore.Update st e =
        (.error (.Validation ("Event not valid Id = " ++ e.id)), st)) ∧
    (objectIdValid e.id = true → objectIdValid e.instanceId = false →
      MongoEventStore.Create st e =
        (.error (.Validation ("Event not valid InstanceId = " ++ e.instanceId)), st) ∧
      MongoEventStore.Update st e =
        (.error (.Validation ("Event not valid InstanceId = " ++ e.instanceId)), st)) := by
  constructor
  · intro h
    have hv : validateEvent e = some ("Event not valid Id = " ++ e.id) := by
      simp [validateEvent, h]
    exact ⟨by simp [MongoEventStore.Create, hv], by simp [MongoEventStore.Update, hv]⟩
  · intro h1 h2
    have hv : validateEvent e = some ("Event not valid InstanceId = " ++ e.instanceId) := by
      simp [validateEvent, h1, h2]
    exact ⟨by simp [MongoEventStore.Create, hv], by simp [MongoEventStore.Update, hv]⟩

/-- Witness for C3: an event with an empty (invalid) Id, and one with a
valid Id but an empty InstanceId. -/
theorem createUpdateValidationError_witness :
    (MongoEventStore.Create ⟨[], 0⟩ ⟨"", "bbbbbbbbbbbb", 101, []⟩ =
        (.error (.Validation ("Event not valid Id = " ++ "")), ⟨[], 0⟩) ∧
     MongoEventStore.Update ⟨[], 0⟩ ⟨"", "bbbbbbbbbbbb", 101, []⟩ =
        (.error (.Validation ("Event not valid Id = " ++ "")), ⟨[], 0⟩)) ∧
    (MongoEventStore.Create ⟨[], 0⟩ ⟨"aaaaaaaaaaaa", "", 101, []⟩ =
        (.error (.Validation ("Event not valid InstanceId = " ++ "")), ⟨[], 0⟩) ∧
     MongoEventStore.Update ⟨[], 0⟩ ⟨"aaaaaaaaaaaa", "", 101, []⟩ =
        (.error (.Validation ("Event not valid InstanceId = " ++ "")), ⟨[], 0⟩)) :=
  ⟨(createUpdateValidationError ⟨[], 0⟩ ⟨"", "bbbbbbbbbbbb", 101, []⟩).1 (by decide),
   (createUpdateValidationError ⟨[], 0⟩ ⟨"aaaaaaaaaaaa", "", 101, []⟩).2
     (by decide) (by decide)⟩

/-- C4: `Get` of an identifier matching no stored envelope fails with the
sentinel `ErrNotFound`; the error-mapping step of `Get` passes every find
error other than `mgo.ErrNotFound` through unmodified; and `ErrNotFound`
is a checkable value distinct from every other error of the package. -/
theorem getNotFoundSentinel (st : StoreState) (id : String) (out : GoVal)
    (h : ∀ r ∈ st.docs, r.Id ≠ id) :
    (MongoEventStore.Get st id out).1 = .error .ErrNotFound ∧
    (∀ er : GoErr, er ≠ .MgoErrNotFound →
      getWithFindResult (.error er) out = .error er) ∧
    GoErr.ErrNotFound ≠ .MgoErrNotFound ∧
    GoErr.ErrNotFound ≠ .ErrInterfaceNotSlicePtr ∧
    (∀ m, GoErr.ErrNotFound ≠ .Validation m ∧ GoErr.ErrNotFound ≠ .Other m) := by
  refine ⟨?_, ?_, by simp, by simp, by simp⟩
  · have hnone : st.docs.find? (fun r => r.Id == id) = none := by
      rw [List.find?_eq_none]
      intro x hx hbx
      exact h x hx (by simpa using hbx)
    simp [MongoEventStore.Get, sessionCopy, findOne, hnone, getWithFindResult]
  · intro er her
    simp [getWithFindResult, her]

/-- Witness for C4: an empty store has no envelope for any id, so `Get`
returns `ErrNotFound` there. -/
theorem getNotFoundSentinel_witness :
    (MongoEventStore.Get ⟨[], 0⟩ "aaaaaaaaaaaa" (.structV [])).1 =
      .error .ErrNotFound :=
  (getNotFoundSentinel ⟨[], 0⟩ "aaaaaaaaaaaa" (.structV []) (by simp)).1

/-- C5: `list` — shared by `List` and `ListFiltered` — fails with
`ErrInterfaceNotSlicePtr` exactly when the destination is the nil
interface, a non-pointer (in particular a slice passed by value), or a
pointer to something other than a slice; a pointer to a slice never
draws that error, and when zero documents match the call succeeds with
the destination left an empty sequence. -/
theorem listDestinationCheck (st : StoreState) (f : Option (rawEvent → Bool)) :
    MongoEventStore.listOp st .nilD f = (.error .ErrInterfaceNotSlicePtr, st) ∧
    (∀ ty elems, MongoEventStore.listOp st (.sliceByValue ty elems) f =
      (.error .ErrInterfaceNotSlicePtr, st)) ∧
    (∀ v, MongoEventStore.listOp st (.nonPtrOther v) f =
      (.error .ErrInterfaceNotSlicePtr, st)) ∧
    (∀ v, MongoEventStore.listOp st (.ptrNonSlice v) f =
      (.error .ErrInterfaceNotSlicePtr, st)) ∧
    (∀ ty elems, (MongoEventStore.listOp st (.ptrSlice ty elems) f).1 ≠
      .error .ErrInterfaceNotSlicePtr) ∧
    (∀ ty, findAll st.docs f = [] →
      (MongoEventStore.listOp st (.ptrSlice ty []) f).1 = .ok (.ptrSlice ty [])) := by
  refine ⟨rfl, fun ty elems => rfl, fun v => rfl, fun v => rfl, ?_, ?_⟩
  · intro ty elems
    simp [MongoEventStore.listOp]
  · intro ty hempty
    simp [MongoEventStore.listOp, sessionCopy, hempty]

/-- Witness for C5: nil destination fails on an empty store; a pointer to
an empty slice succeeds with an empty result when nothing matches. -/
theorem listDestinationCheck_witness :
    MongoEventStore.listOp ⟨[], 0⟩ .nilD none =
      (.error .ErrInterfaceNotSlicePtr, ⟨[], 0⟩) ∧
    (MongoEventStore.listOp ⟨[], 0⟩ (.ptrSlice .otherTy []) none).1 =
      .ok (.ptrSlice .otherTy []) :=
  ⟨(listDestinationCheck ⟨[], 0⟩ none).1,
   (listDestinationCheck ⟨[], 0⟩ none).2.2.2.2.2 .otherTy rfl⟩

/-- C6: at a concrete failing input — one stored envelope, destination a
pointer to a slice whose element type is not a struct or map — the
deserialization of the stored payload fails, yet `List` succeeds and
appends the zero-value element: the loop of `list` discards `fromEvent`'s
error instead of propagating it as the BackendError policy requires. -/
theorem listSwallowsUnmarshalError :
    fromEvent (ElemTy.zeroVal .otherTy) (buildEvent sampleEvent) =
      .error (.Other "Unmarshal needs a map or a pointer to a struct.") ∧
    (MongoEventStore.List ⟨[buildEvent sampleEvent], 0⟩ (.ptrSlice .otherTy [])).1 =
      .ok (.ptrSlice .otherTy [ElemTy.zeroVal .otherTy]) := by
  constructor
  · rfl
  · rfl

/-- C7: for a valid event `e` whose id matches a stored envelope, `Update`
replaces that envelope's entire content — instance id, type tag and raw
payload — with the freshly serialized `buildEvent e`, and a subsequent
`Get` on that id returns `e`'s field document, not the previously stored
value. -/
theorem updateReplacesEnvelope (st : StoreState) (e : GoEvent) (ty : StructTy)
    (hval : validateEvent e = none)
    (hconf : conforms e.doc ty = true)
    (hnd : (e.doc.map Prod.fst).Nodup)
    (hex : (st.docs.find? fun r => r.Id == e.id).isSome = true) :
    MongoEventStore.Update st e =
      (.ok (), ⟨replaceFirst st.docs e.id (buildEvent e), st.openSessions⟩) ∧
    findOne (replaceFirst st.docs e.id (buildEvent e)) e.id = .ok (buildEvent e) ∧
    (MongoEventStore.Get ⟨replaceFirst st.docs e.id (buildEvent e), st.openSessions⟩
        e.id (ElemTy.zeroVal (.structTy ty))).1 = .ok (.structV e.doc) := by
  have hfo := findOne_replaceFirst e.id (buildEvent e) rfl st.docs hex
  refine ⟨?_, hfo, ?_⟩
  · unfold MongoEventStore.Update
    rw [hval]
    obtain ⟨r0, hr0⟩ := Option.isSome_iff_exists.mp hex
    simp [updateDoc, sessionCopy, sessionClose, hr0]
  · simp only [MongoEventStore.Get, sessionCopy]
    rw [hfo]
    simp [getWithFindResult, fromEvent, buildEvent,
      bsonUnmarshal_zero e.doc ty hconf hnd]

/-- Witness for C7: the sample event is stored, then updated by a second
event sharing its id but with a different instance id and payload; `Get`
returns the updated fields. -/
theorem updateReplacesEnvelope_witness :
    MongoEventStore.Update ⟨[buildEvent sampleEvent], 0⟩ sampleEvent2 =
      (.ok (), ⟨replaceFirst [buildEvent sampleEvent] sampleEvent2.id
        (buildEvent sampleEvent2), 0⟩) ∧
    findOne (replaceFirst [buildEvent sampleEvent] sampleEvent2.id
        (buildEvent sampleEvent2)) sampleEvent2.id = .ok (buildEvent sampleEvent2) ∧
    (MongoEventStore.Get ⟨replaceFirst [buildEvent sampleEvent] sampleEvent2.id
        (buildEvent sampleEvent2), 0⟩ sampleEvent2.id
        (ElemTy.zeroVal (.structTy sampleTy))).1 = .ok (.structV sampleEvent2.doc) :=
  updateReplacesEnvelope ⟨[buildEvent sampleEvent], 0⟩ sampleEvent2 sampleTy
    (by decide) (by decide) (by decide) (by decide)

/-- C8: Create, Update and Get balance every `Session.Copy` with the
deferred `session.Close` on success and error paths alike, returning the
open-session count to its pre-call value — but `list` (reached by `List`
and `ListFiltered` with any pointer-to-slice destination) copies a
session at line 197 and never closes it, leaving the count one higher
than before the call; the final conjunct evaluates the leak at a concrete
input. -/
theorem sessionReleaseAudit :
    (∀ st e, ((MongoEventStore.Create st e).2).openSessions = st.openSessions) ∧
    (∀ st e, ((MongoEventStore.Update st e).2).openSessions = st.openSessions) ∧
    (∀ st id out, ((MongoEventStore.Get st id out).2).openSessions = st.openSessions) ∧
    (∀ st ty elems f, ((MongoEventStore.listOp st (.ptrSlice ty elems) f).2).openSessions =
      st.openSessions + 1) ∧
    ((MongoEventStore.List ⟨[], 0⟩ (.ptrSlice .otherTy [])).2).openSessions = 1 := by
  refine ⟨?_, ?_, ?_, ?_, rfl⟩
  · intro st e
    unfold MongoEventStore.Create
    cases hv : validateEvent e with
    | some m => rfl
    | none =>
      simp only [sessionCopy, sessionClose, Nat.add_sub_cancel]
      cases insertDoc st.docs (buildEvent e) <;> rfl
  · intro st e
    unfold MongoEventStore.Update
    cases hv : validateEvent e with
    | some m => rfl
    | none =>
      simp only [sessionCopy, sessionClose, Nat.add_sub_cancel]
      cases updateDoc st.docs e.id (buildEvent e) <;> rfl
  · intro st id out
    simp [MongoEventStore.Get, sessionCopy, sessionClose]
  · intro st ty elems f
    simp [MongoEventStore.listOp, sessionCopy]

/-- C9: `Init` builds its options from the defaults `localhost:27017` /
`event-sourcing` / `event` and applies the supplied options in order
after them, each overriding exactly its own field: every field of the
result is the last supplied value of the corresponding option kind, or
the default when none of that kind was supplied. -/
theorem initOptionsDefaultsAndOverrides (opts : List OptArg) :
    initOptions [] = defaultOptions ∧
    (initOptions opts).Address =
      lastD (opts.filterMap OptArg.addr?) "localhost:27017" ∧
    (initOptions opts).DatabaseName =
      lastD (opts.filterMap OptArg.db?) "event-sourcing" ∧
    (initOptions opts).CollectionName =
      lastD (opts.filterMap OptArg.col?) "event" := by
  refine ⟨rfl, ?_, ?_, ?_⟩
  · exact newOptions_foldl_address opts defaultOptions
  · exact newOptions_foldl_database opts defaultOptions
  · exact newOptions_foldl_collection opts defaultOptions

/-- C10: `list` never resets the destination slice: with a pointer to a
non-empty slice the existing elements are left unchanged in place, the
reconstructed envelopes are appended after them, and the final length is
the prior length plus the number of retrieved envelopes. -/
theorem listAppendsAfterExisting (st : StoreState) (ty : ElemTy)
    (elems : List GoVal) (f : Option (rawEvent → Bool)) :
    (MongoEventStore.listOp st (.ptrSlice ty elems) f).1 =
      .ok (.ptrSlice ty (elems ++ (findAll st.docs f).map (reconstruct ty))) ∧
    (elems ++ (findAll st.docs f).map (reconstruct ty)).length =
      elems.length + (findAll st.docs f).length := by
  constructor
  · simp [MongoEventStore.listOp, sessionCopy]
  · simp
